import Mathlib

/-!
Verification of the `codex-manager` account server (`src/server/index.ts`).

The server manipulates JSON values obtained from `JSON.parse` and from JWT
payload decoding, so the embedding starts from a model of the JavaScript
runtime values these functions produce and of the handful of JavaScript
operations the server applies to them (property access, `||`, `===`,
`delete`, property assignment, `* 1000`, `.length`).  A thrown `TypeError`
(property access on `null`/`undefined`, calling a method of a non-string)
is modelled by `Option`/explicit guards, since every handler wraps such
accesses in `try`/`catch`.
-/

/-- A JavaScript runtime value as produced by `JSON.parse` and manipulated by
the server.  `undefined` is JavaScript's `undefined` (the result of reading an
absent property); `nan` is the number `NaN` (the result of a failed numeric
coercion).  Numbers are modelled as integers: every numeric field the server
reads or writes (`exp`, `added_at`, `Date.now()`) is an integral JSON number. -/
inductive JsVal where
  | undefined : JsVal
  | null : JsVal
  | bool (b : Bool) : JsVal
  | num (n : Int) : JsVal
  | nan : JsVal
  | str (s : String) : JsVal
  | arr (elems : List JsVal) : JsVal
  | obj (fields : List (String × JsVal)) : JsVal

mutual

def JsVal.beqv : JsVal → JsVal → Bool
  | .undefined, .undefined => true
  | .null, .null => true
  | .bool a, .bool b => a == b
  | .num a, .num b => a == b
  | .nan, .nan => true
  | .str a, .str b => a == b
  | .arr a, .arr b => JsVal.beqvList a b
  | .obj a, .obj b => JsVal.beqvFields a b
  | _, _ => false

def JsVal.beqvList : List JsVal → List JsVal → Bool
  | [], [] => true
  | x :: xs, y :: ys => JsVal.beqv x y && JsVal.beqvList xs ys
  | _, _ => false

def JsVal.beqvFields : List (String × JsVal) → List (String × JsVal) → Bool
  | [], [] => true
  | (k, v) :: xs, (l, w) :: ys =>
    k == l && JsVal.beqv v w && JsVal.beqvFields xs ys
  | _, _ => false

end

mutual

def JsVal.beqv_iff : ∀ a b : JsVal, JsVal.beqv a b = true ↔ a = b
  | .undefined, .undefined => by simp [JsVal.beqv]
  | .null, .null => by simp [JsVal.beqv]
  | .bool _, .bool _ => by simp [JsVal.beqv]
  | .num _, .num _ => by simp [JsVal.beqv]
  | .nan, .nan => by simp [JsVal.beqv]
  | .str _, .str _ => by simp [JsVal.beqv]
  | .arr a, .arr b => by simp [JsVal.beqv, JsVal.beqvList_iff a b]
  | .obj a, .obj b => by simp [JsVal.beqv, JsVal.beqvFields_iff a b]
  | .undefined, .null | .undefined, .bool _ | .undefined, .num _ | .undefined, .nan
  | .undefined, .str _ | .undefined, .arr _ | .undefined, .obj _
  | .null, .undefined | .null, .bool _ | .null, .num _ | .null, .nan
  | .null, .str _ | .null, .arr _ | .null, .obj _
  | .bool _, .undefined | .bool _, .null | .bool _, .num _ | .bool _, .nan
  | .bool _, .str _ | .bool _, .arr _ | .bool _, .obj _
  | .num _, .undefined | .num _, .null | .num _, .bool _ | .num _, .nan
  | .num _, .str _ | .num _, .arr _ | .num _, .obj _
  | .nan, .undefined | .nan, .null | .nan, .bool _ | .nan, .num _
  | .nan, .str _ | .nan, .arr _ | .nan, .obj _
  | .str _, .undefined | .str _, .null | .str _, .bool _ | .str _, .num _
  | .str _, .nan | .str _, .arr _ | .str _, .obj _
  | .arr _, .undefined | .arr _, .null | .arr _, .bool _ | .arr _, .num _
  | .arr _, .nan | .arr _, .str _ | .arr _, .obj _
  | .obj _, .undefined | .obj _, .null | .obj _, .bool _ | .obj _, .num _
  | .obj _, .nan | .obj _, .str _ | .obj _, .arr _ => by simp [JsVal.beqv]

def JsVal.beqvList_iff : ∀ xs ys : List JsVal, JsVal.beqvList xs ys = true ↔ xs = ys
  | [], [] => by simp [JsVal.beqvList]
  | x :: xs, y :: ys => by
    simp [JsVal.beqvList, JsVal.beqv_iff x y, JsVal.beqvList_iff xs ys]
  | [], _ :: _ => by simp [JsVal.beqvList]
  | _ :: _, [] => by simp [JsVal.beqvList]

def JsVal.beqvFields_iff :
    ∀ xs ys : List (String × JsVal), JsVal.beqvFields xs ys = true ↔ xs = ys
  | [], [] => by simp [JsVal.beqvFields]
  | (k, v) :: xs, (l, w) :: ys => by
    simp [JsVal.beqvFields, JsVal.beqv_iff v w, JsVal.beqvFields_iff xs ys, and_assoc]
  | [], _ :: _ => by simp [JsVal.beqvFields]
  | _ :: _, [] => by simp [JsVal.beqvFields]

end

instance : DecidableEq JsVal := fun a b => decidable_of_iff _ (JsVal.beqv_iff a b)

/-- Is the value `null` or `undefined` (the receivers on which a property
access throws)? -/
def jsIsNullOrUndef : JsVal → Bool
  | .null => true
  | .undefined => true
  | _ => false

/-- Lookup of a field in an object's field list.  The JSON parser below keeps
object keys unique (last spelling wins, as `JSON.parse` does), so the first
match is the only match. -/
def objLookup (fields : List (String × JsVal)) (k : String) : Option JsVal :=
  (fields.find? (fun p => p.1 == k)).map (fun p => p.2)

/-- Insert or replace a field, keeping the original position of an existing
key, as JavaScript property assignment and `JSON.parse`'s duplicate-key
handling both do. -/
def objInsert (fields : List (String × JsVal)) (k : String) (v : JsVal) :
    List (String × JsVal) :=
  if fields.any (fun p => p.1 == k) then
    fields.map (fun p => if p.1 == k then (k, v) else p)
  else
    fields ++ [(k, v)]

/-- JavaScript truthiness: `undefined`, `null`, `false`, `0`, `NaN` and the
empty string are falsy, everything else (objects and arrays included) is
truthy. -/
def jsTruthy : JsVal → Bool
  | .undefined => false
  | .null => false
  | .bool b => b
  | .num n => n != 0
  | .nan => false
  | .str s => s.length != 0
  | .arr _ => true
  | .obj _ => true

/-- JavaScript `a || b` (on already-evaluated operands). -/
def jsOr (a b : JsVal) : JsVal := if jsTruthy a then a else b

/-- Property read `v[k]` at a receiver that is never `null`/`undefined`, and
optional-chained reads `v?.[k]`: an object yields the field (or `undefined`
when absent); a primitive or array receiver yields `undefined` for every key
the server uses (none of them is `length` or an index). -/
def jsOptGet : JsVal → String → JsVal
  | .obj fields, k => (objLookup fields k).getD .undefined
  | _, _ => .undefined

/-- Plain property read `v[k]`: `none` models the `TypeError` JavaScript
throws when the receiver is `null` or `undefined`. -/
def jsGetE : JsVal → String → Option JsVal
  | .null, _ => none
  | .undefined, _ => none
  | v, k => some (jsOptGet v k)

/-- JavaScript strict equality `===` as the server applies it to token
fields.  Both operands always come from separate `JSON.parse` calls, so
object/array operands are distinct heap references and compare unequal;
`undefined === undefined` and `null === null` are true; `NaN` equals
nothing. -/
def jsStrictEq : JsVal → JsVal → Bool
  | .undefined, .undefined => true
  | .null, .null => true
  | .bool a, .bool b => a == b
  | .num a, .num b => a == b
  | .str a, .str b => a == b
  | _, _ => false

/-- Value of a decimal-digit string, used by the partial `ToNumber` model. -/
def digitsToNat (cs : List Char) : Nat :=
  cs.foldl (fun acc c => acc * 10 + (c.toNat - 48)) 0

/-- A partial model of JavaScript `ToNumber` on the values the server can
multiply: numbers, `null`, booleans and plain decimal-digit strings convert
exactly; `none` stands for `NaN`.  (Arrays and objects, which JavaScript
coerces through `toString`, are approximated as `NaN`; no record in this
data model carries such an `exp`.) -/
def jsToNumber : JsVal → Option Int
  | .num n => some n
  | .nan => none
  | .null => some 0
  | .bool b => some (if b then 1 else 0)
  | .undefined => none
  | .str s =>
    if s.data ≠ [] ∧ s.data.all Char.isDigit then some (Int.ofNat (digitsToNat s.data))
    else none
  | .arr _ => none
  | .obj _ => none

/-- JavaScript `v * 1000` (src/server/index.ts:69, `exp * 1000`). -/
def jsMul1000 (v : JsVal) : JsVal :=
  match jsToNumber v with
  | some n => .num (n * 1000)
  | none => .nan

/-- JavaScript `v.length > 0` (src/server/index.ts:71).  The receiver at the
call site is never `null`/`undefined` (it was defaulted to `''`); for
non-string non-array receivers `.length` is `undefined` and the comparison
is false. -/
def jsLenPos : JsVal → Bool
  | .str s => 0 < s.length
  | .arr xs => 0 < xs.length
  | _ => false

/-- JavaScript `delete v[k]` (src/server/index.ts:158).  `none` models the
`TypeError` thrown (in module strict mode) on a `null`/`undefined` receiver;
deleting from a primitive or array receiver leaves the modelled value
unchanged. -/
def jsDelete : JsVal → String → Option JsVal
  | .null, _ => none
  | .undefined, _ => none
  | .obj fields, k => some (.obj (fields.filter (fun p => p.1 != k)))
  | v, _ => some v

/-- JavaScript `v[k] = x` (src/server/index.ts:192).  `none` models the
strict-mode `TypeError` on a `null`/`undefined` or primitive receiver; an
array receiver accepts the expando property, which the later
`JSON.stringify` drops again, so the modelled value is unchanged. -/
def jsSet : JsVal → String → JsVal → Option JsVal
  | .obj fields, k, v => some (.obj (objInsert fields k v))
  | .arr xs, _, _ => some (.arr xs)
  | _, _, _ => none

/-!
## Codecs used by `decodeJwt` (src/server/index.ts:23-30)

`decodeJwt` splits the token on `.`, decodes the middle segment with
`Buffer.from(payload, 'base64url').toString('utf-8')` and parses the result
with `JSON.parse`.  The three codecs are modelled below.
-/

/-- `String.prototype.split('.')` on the character list of the string:
maximal runs between dots, with empty runs kept, so `""` yields `[""]` and
`"a."` yields `["a", ""]`, as in JavaScript. -/
def splitDots : List Char → List (List Char)
  | [] => [[]]
  | c :: rest =>
    match splitDots rest with
    | [] => if c = '.' then [[], []] else [[c]]
    | h :: t => if c = '.' then [] :: h :: t else (c :: h) :: t

/-- Value of one base64/base64url alphabet character.  Node's decoder accepts
both alphabets interchangeably for `'base64url'`. -/
def b64Val (c : Char) : Option Nat :=
  if 'A' ≤ c ∧ c ≤ 'Z' then some (c.toNat - 65)
  else if 'a' ≤ c ∧ c ≤ 'z' then some (c.toNat - 97 + 26)
  else if '0' ≤ c ∧ c ≤ '9' then some (c.toNat - 48 + 52)
  else if c = '-' ∨ c = '+' then some 62
  else if c = '_' ∨ c = '/' then some 63
  else none

/-- Bit accumulator for base64 decoding: `acc` holds `bits < 8` pending bits;
each alphabet character contributes 6 bits and a byte is emitted whenever 8
are available.  Characters outside the alphabet (padding `=` included) are
skipped, modelling Node's forgiving decoder; trailing bits short of a byte
are dropped. -/
def b64DecodeAux : List Char → Nat → Nat → List Nat
  | [], _, _ => []
  | c :: rest, acc, bits =>
    match b64Val c with
    | none => b64DecodeAux rest acc bits
    | some v =>
      let acc2 := acc * 64 + v
      let bits2 := bits + 6
      if 8 ≤ bits2 then
        (acc2 / 2 ^ (bits2 - 8)) :: b64DecodeAux rest (acc2 % 2 ^ (bits2 - 8)) (bits2 - 8)
      else
        b64DecodeAux rest acc2 bits2

/-- `Buffer.from(payload, 'base64url')` as a byte list. -/
def base64Decode (cs : List Char) : List Nat := b64DecodeAux cs 0 0

/-- Is a byte a UTF-8 continuation byte? -/
def isCont (b : Nat) : Bool := 128 ≤ b ∧ b < 192

/-- The Unicode replacement character U+FFFD that `Buffer.toString('utf-8')`
substitutes for invalid sequences. -/
def replChar : Char := Char.ofNat 0xFFFD

/-- Fuelled UTF-8 decoding of a byte list, one scalar per step; malformed
sequences yield U+FFFD and resynchronise at the next byte.  (Overlong
encodings are not rejected and a code point outside the scalar range decodes
through `Char.ofNat`'s fallback; both arise only from garbage payloads whose
subsequent `JSON.parse` fails.)  The fuel is at least the byte count, so it
never runs out. -/
def utf8DecodeF : Nat → List Nat → List Char
  | 0, _ => []
  | _ + 1, [] => []
  | fuel + 1, b :: rest =>
    if b < 128 then Char.ofNat b :: utf8DecodeF fuel rest
    else if 192 ≤ b ∧ b < 224 then
      match rest with
      | b2 :: rest2 =>
        if isCont b2 then
          Char.ofNat ((b - 192) * 64 + (b2 - 128)) :: utf8DecodeF fuel rest2
        else replChar :: utf8DecodeF fuel rest
      | [] => [replChar]
    else if 224 ≤ b ∧ b < 240 then
      match rest with
      | b2 :: b3 :: rest3 =>
        if isCont b2 ∧ isCont b3 then
          Char.ofNat ((b - 224) * 4096 + (b2 - 128) * 64 + (b3 - 128)) ::
            utf8DecodeF fuel rest3
        else replChar :: utf8DecodeF fuel rest
      | _ => [replChar]
    else if 240 ≤ b ∧ b < 248 then
      match rest with
      | b2 :: b3 :: b4 :: rest4 =>
        if isCont b2 ∧ isCont b3 ∧ isCont b4 then
          Char.ofNat ((b - 240) * 262144 + (b2 - 128) * 4096 + (b3 - 128) * 64 +
            (b4 - 128)) :: utf8DecodeF fuel rest4
        else replChar :: utf8DecodeF fuel rest
      | _ => [replChar]
    else replChar :: utf8DecodeF fuel rest

/-- `buffer.toString('utf-8')` as a character list. -/
def utf8Decode (bs : List Nat) : List Char := utf8DecodeF (bs.length + 1) bs

/-!
## `JSON.parse` and `JSON.stringify`

A fuelled recursive-descent JSON reader over character lists.  It follows
ECMA-404 with two documented approximations: a number is read as its integer
part (any fraction or exponent is consumed and discarded — every numeric
field in this data model is integral), and a leading zero before further
digits is tolerated.  Duplicate object keys keep the first position and the
last value, as `JSON.parse` does.  The entry point supplies fuel larger than
the input, so well-formed inputs in scope never exhaust it.
-/

/-- The brace characters, spelt by code point. -/
def lbrace : Char := Char.ofNat 123

def rbrace : Char := Char.ofNat 125

def jsonWs (c : Char) : Bool := c = ' ' ∨ c = '\t' ∨ c = '\n' ∨ c = '\r'

def skipWs : List Char → List Char
  | [] => []
  | c :: rest => if jsonWs c then skipWs rest else c :: rest

/-- Match an expected literal suffix (for `true`, `false`, `null`). -/
def expectLit : List Char → List Char → Option (List Char)
  | cs, [] => some cs
  | c :: cs, t :: ts => if c = t then expectLit cs ts else none
  | [], _ :: _ => none

def hexVal (c : Char) : Option Nat :=
  if '0' ≤ c ∧ c ≤ '9' then some (c.toNat - 48)
  else if 'a' ≤ c ∧ c ≤ 'f' then some (c.toNat - 97 + 10)
  else if 'A' ≤ c ∧ c ≤ 'F' then some (c.toNat - 65 + 10)
  else none

/-- Read the body of a JSON string literal (after the opening quote),
accumulating characters in reverse. -/
def parseStrAux : Nat → List Char → List Char → Option (String × List Char)
  | 0, _, _ => none
  | fuel + 1, cs, acc =>
    match cs with
    | [] => none
    | c :: rest =>
      if c = '"' then some (String.mk acc.reverse, rest)
      else if c = '\\' then
        match rest with
        | [] => none
        | e :: rest2 =>
          if e = '"' ∨ e = '\\' ∨ e = '/' then parseStrAux fuel rest2 (e :: acc)
          else if e = 'n' then parseStrAux fuel rest2 ('\n' :: acc)
          else if e = 't' then parseStrAux fuel rest2 ('\t' :: acc)
          else if e = 'r' then parseStrAux fuel rest2 ('\r' :: acc)
          else if e = 'b' then parseStrAux fuel rest2 (Char.ofNat 8 :: acc)
          else if e = 'f' then parseStrAux fuel rest2 (Char.ofNat 12 :: acc)
          else if e = 'u' then
            match rest2 with
            | h1 :: h2 :: h3 :: h4 :: rest3 =>
              match hexVal h1, hexVal h2, hexVal h3, hexVal h4 with
              | some v1, some v2, some v3, some v4 =>
                parseStrAux fuel rest3
                  (Char.ofNat (v1 * 4096 + v2 * 256 + v3 * 16 + v4) :: acc)
              | _, _, _, _ => none
            | _ => none
          else none
      else if c.toNat < 32 then none
      else parseStrAux fuel rest (c :: acc)

/-- Split off a maximal run of decimal digits. -/
def takeDigits : List Char → List Char × List Char
  | [] => ([], [])
  | c :: rest =>
    if c.isDigit then
      let (ds, r) := takeDigits rest
      (c :: ds, r)
    else ([], c :: rest)

/-- Read a JSON number, yielding its integer part (fraction and exponent are
consumed and discarded). -/
def parseNum (cs : List Char) : Option (JsVal × List Char) :=
  let (neg, cs1) :=
    match cs with
    | c :: rest => if c = '-' then (true, rest) else (false, cs)
    | [] => (false, [])
  match takeDigits cs1 with
  | ([], _) => none
  | (ds, cs2) =>
    let n : Int := Int.ofNat (digitsToNat ds)
    let cs3 :=
      match cs2 with
      | c :: rest =>
        if c = '.' then
          match takeDigits rest with
          | ([], _) => none
          | (_, r) => some r
        else some cs2
      | [] => some cs2
    match cs3 with
    | none => none
    | some cs4 =>
      let cs5 :=
        match cs4 with
        | c :: rest =>
          if c = 'e' ∨ c = 'E' then
            let rest2 :=
              match rest with
              | d :: r2 => if d = '+' ∨ d = '-' then r2 else rest
              | [] => rest
            match takeDigits rest2 with
            | ([], _) => none
            | (_, r) => some r
          else some cs4
        | [] => some cs4
      match cs5 with
      | none => none
      | some cs6 => some (.num (if neg then -n else n), cs6)

mutual

/-- Read one JSON value. -/
def parseV : Nat → List Char → Option (JsVal × List Char)
  | 0, _ => none
  | fuel + 1, cs =>
    match skipWs cs with
    | [] => none
    | c :: rest =>
      if c = lbrace then parseFields fuel rest [] true
      else if c = '[' then parseElems fuel rest [] true
      else if c = '"' then
        match parseStrAux (rest.length + 1) rest [] with
        | some (s, r) => some (.str s, r)
        | none => none
      else if c = 't' then (expectLit rest ['r', 'u', 'e']).map (fun r => (.bool true, r))
      else if c = 'f' then
        (expectLit rest ['a', 'l', 's', 'e']).map (fun r => (.bool false, r))
      else if c = 'n' then (expectLit rest ['u', 'l', 'l']).map (fun r => (.null, r))
      else if c = '-' ∨ c.isDigit then parseNum (c :: rest)
      else none

/-- Read the members of an object after its opening brace; `first` is true
before any member has been read. -/
def parseFields (fuel : Nat) (cs : List Char) (acc : List (String × JsVal))
    (first : Bool) : Option (JsVal × List Char) :=
  match fuel with
  | 0 => none
  | fuel + 1 =>
    match skipWs cs with
    | [] => none
    | c :: rest =>
      if c = rbrace ∧ first then some (.obj acc, rest)
      else
        let cs2 := if first then c :: rest else
          if c = ',' then rest else []
        match cs2 with
        | [] => none
        | _ =>
          if ¬ first ∧ c ≠ ',' then none
          else
            match skipWs cs2 with
            | q :: rest2 =>
              if q = '"' then
                match parseStrAux (rest2.length + 1) rest2 [] with
                | some (k, r) =>
                  match skipWs r with
                  | colon :: r2 =>
                    if colon = ':' then
                      match parseV fuel r2 with
                      | some (v, r3) =>
                        match skipWs r3 with
                        | d :: r4 =>
                          if d = rbrace then some (.obj (objInsert acc k v), r4)
                          else if d = ',' then
                            parseFields fuel (d :: r4) (objInsert acc k v) false
                          else none
                        | [] => none
                      | none => none
                    else none
                  | [] => none
                | none => none
              else none
            | [] => none

/-- Read the elements of an array after its opening bracket. -/
def parseElems (fuel : Nat) (cs : List Char) (acc : List JsVal)
    (first : Bool) : Option (JsVal × List Char) :=
  match fuel with
  | 0 => none
  | fuel + 1 =>
    match skipWs cs with
    | [] => none
    | c :: rest =>
      if c = ']' ∧ first then some (.arr acc.reverse, rest)
      else
        let cs2 := if first then c :: rest else
          if c = ',' then rest else []
        match cs2 with
        | [] => none
        | _ =>
          if ¬ first ∧ c ≠ ',' then none
          else
            match parseV fuel cs2 with
            | some (v, r) =>
              match skipWs r with
              | d :: r2 =>
                if d = ']' then some (.arr (acc.reverse ++ [v]), r2)
                else if d = ',' then parseElems fuel (d :: r2) (v :: acc) false
                else none
              | [] => none
            | none => none

end

/-- `JSON.parse` over a character list: one value, possibly surrounded by
whitespace, and nothing after it; `none` models the thrown `SyntaxError`. -/
def parseJsonChars (cs : List Char) : Option JsVal :=
  match parseV (4 * (cs.length + 1)) cs with
  | some (v, rest) => if skipWs rest = [] then some v else none
  | none => none

/-- `JSON.parse` on a string. -/
def parseJsonStr (s : String) : Option JsVal := parseJsonChars s.data

/-!
## JWT payload decoding (src/server/index.ts:23-30, `decodeJwt`)
-/

/-- The body of `decodeJwt`'s `try` block: split the token on `.`, base64url-
decode segment 1, UTF-8 decode it and `JSON.parse` the text.  `none` models a
thrown error: the token is not a string (`token.split` is not a function),
there is no segment 1 (`Buffer.from(undefined)` throws), or `JSON.parse`
rejects the decoded text. -/
def decodeJwtE (token : JsVal) : Option JsVal :=
  match token with
  | .str s =>
    match (splitDots s.data)[1]? with
    | none => none
    | some payload => parseJsonChars (utf8Decode (base64Decode payload))
  | _ => none

/-- `decodeJwt` (src/server/index.ts:23-30): the `catch` block turns every
failure into the empty claim object `{}`. -/
def decodeJwt (token : JsVal) : JsVal :=
  match decodeJwtE token with
  | some v => v
  | none => .obj []

/-- `decodeJwt` together with the console output its execution produces: its
`catch` block is bare (`catch { return {} }`), so no line is ever logged. -/
def decodeJwtWithConsole (token : JsVal) : JsVal × List String :=
  (decodeJwt token, [])

/-!
## `parseAuthFile` (src/server/index.ts:45-74)

Lines 47-50 read each token field from the nested `tokens` object, falling
back to the legacy top-level field and then to a default; `tokens?.x` is
optional-chained and `authData.x` is a plain access on a receiver already
known non-null (line 46 would have thrown first).  Property reads can throw
only at line 46 (`authData.tokens` with `authData` null) and at lines 55-61
when a decoded payload is JSON `null`; the `Option` result models those
throws, which every caller catches.
-/

def tokensFieldOf (authData : JsVal) (key : String) (dflt : JsVal) : JsVal :=
  jsOr (jsOptGet (jsOptGet authData "tokens") key) (jsOr (jsOptGet authData key) dflt)

def idTokenOf (authData : JsVal) : JsVal := tokensFieldOf authData "id_token" (.str "")

def accessTokenOf (authData : JsVal) : JsVal :=
  tokensFieldOf authData "access_token" (.str "")

def refreshTokenOf (authData : JsVal) : JsVal :=
  tokensFieldOf authData "refresh_token" (.str "")

def storedAccountIdOf (authData : JsVal) (accountId : String) : JsVal :=
  tokensFieldOf authData "account_id" (.str accountId)

/-- The provider-URL claim namespace of line 55. -/
def authNs : String := "https://api.openai.com/auth"

/-- The profile claim namespace of line 56. -/
def profileNs : String := "https://api.openai.com/profile"

/-- Line 55: `idPayload[authNs] || atPayload[authNs] || {}`. -/
def openaiClaimsOf (idPayload atPayload : JsVal) : JsVal :=
  jsOr (jsOptGet idPayload authNs) (jsOr (jsOptGet atPayload authNs) (.obj []))

/-- Line 56: `atPayload[profileNs] || {}`. -/
def profileClaimsOf (atPayload : JsVal) : JsVal :=
  jsOr (jsOptGet atPayload profileNs) (.obj [])

/-- The record `parseAuthFile` returns (src/server/index.ts:64-73), fields in
source order. -/
structure ParsedAccount where
  id : JsVal
  email : JsVal
  plan : JsVal
  user_id : JsVal
  expires_at : JsVal
  last_refresh : JsVal
  has_refresh_token : Bool
  openai_api_key : JsVal
deriving DecidableEq

/-- `parseAuthFile(authData, accountId)` (src/server/index.ts:45-74); `none`
models a thrown `TypeError` (see the section comment for the only throwing
accesses). -/
def parseAuthFile (authData : JsVal) (accountId : String) : Option ParsedAccount :=
  if jsIsNullOrUndef authData then none
  else
    let idPayload := decodeJwt (idTokenOf authData)
    let atPayload := decodeJwt (accessTokenOf authData)
    if jsIsNullOrUndef idPayload || jsIsNullOrUndef atPayload then none
    else
      some
        { id := storedAccountIdOf authData accountId
          email := jsOr (jsOptGet idPayload "email")
            (jsOr (jsOptGet (profileClaimsOf atPayload) "email") (.str ""))
          plan := jsOr (jsOptGet (openaiClaimsOf idPayload atPayload) "chatgpt_plan_type")
            (.str "free")
          user_id := jsOr (jsOptGet (openaiClaimsOf idPayload atPayload) "chatgpt_user_id")
            (jsOr (jsOptGet idPayload "sub") (.str ""))
          expires_at := jsMul1000
            (jsOr (jsOptGet atPayload "exp") (jsOr (jsOptGet idPayload "exp") (.num 0)))
          last_refresh := jsOr (jsOptGet authData "last_refresh") .null
          has_refresh_token := jsLenPos (refreshTokenOf authData)
          openai_api_key := jsOr (jsOptGet authData "OPENAI_API_KEY") .null }

/-!
## `JSON.stringify`

Used only by `writeMeta` (src/server/index.ts:41-43).  The model emits the
compact rendering; the source passes `(meta, null, 2)`, which differs only in
inter-token whitespace, and no property in scope compares the written bytes.
Per `JSON.stringify`: `undefined`-valued object properties are dropped,
`undefined` array elements and `NaN` become `null`, and `"`, `\` and the
common control characters are escaped (no value in scope contains any other
control character, so the general `\u00XX` form is not modelled). -/
def escapeChar (c : Char) : List Char :=
  if c = '"' then ['\\', '"']
  else if c = '\\' then ['\\', '\\']
  else if c = '\n' then ['\\', 'n']
  else if c = '\t' then ['\\', 't']
  else if c = '\r' then ['\\', 'r']
  else [c]

def escapeString (s : String) : String :=
  String.mk (s.data.foldr (fun c acc => escapeChar c ++ acc) [])

mutual

def stringifyJson : JsVal → String
  | .undefined => "null"
  | .null => "null"
  | .bool b => if b then "true" else "false"
  | .num n => toString n
  | .nan => "null"
  | .str s => "\"" ++ escapeString s ++ "\""
  | .arr xs => "[" ++ stringifyElems xs ++ "]"
  | .obj fs => String.mk [lbrace] ++ stringifyFields fs ++ String.mk [rbrace]

def stringifyElems : List JsVal → String
  | [] => ""
  | [x] => stringifyJson x
  | x :: y :: rest => stringifyJson x ++ "," ++ stringifyElems (y :: rest)

def stringifyFields : List (String × JsVal) → String
  | [] => ""
  | (k, v) :: rest =>
    match v with
    | .undefined => stringifyFields rest
    | _ =>
      let entry := "\"" ++ escapeString k ++ "\":" ++ stringifyJson v
      match rest with
      | [] => entry
      | _ =>
        let tail0 := stringifyFields rest
        if tail0 = "" then entry else entry ++ "," ++ tail0

end

/-!
## Filesystem state and paths (src/server/index.ts:10-21, 32-43)

`os.homedir()` is abstracted to `~`; only the shape of the paths matters.
The filesystem is the part of the disk the server touches: whether
`~/.codex/accounts` exists, its entries (directory name, content of the
entry's `auth.json` when that file exists), the active `~/.codex/auth.json`
and `~/.codex/accounts_meta.json`.
-/

def CODEX_DIR : String := "~/.codex"

def ACCOUNTS_DIR : String := CODEX_DIR ++ "/accounts"

def AUTH_FILE : String := CODEX_DIR ++ "/auth.json"

def META_FILE : String := CODEX_DIR ++ "/accounts_meta.json"

def accountDirPath (id : String) : String := ACCOUNTS_DIR ++ "/" ++ id

def accountAuthPath (id : String) : String := accountDirPath id ++ "/auth.json"

structure Fs where
  accountsDirExists : Bool
  accountEntries : List (String × Option String)
  authFile : Option String
  metaFile : Option String
deriving DecidableEq

/-- Content of `accounts/<id>/auth.json` when that file exists. -/
def entryContent (fs : Fs) (id : String) : Option String :=
  match fs.accountEntries.find? (fun e => e.1 == id) with
  | some (_, some c) => some c
  | _ => none

/-- Does the directory `accounts/<id>` exist? -/
def entryDirExists (fs : Fs) (id : String) : Bool :=
  (fs.accountEntries.find? (fun e => e.1 == id)).isSome

/-- `readMeta` (src/server/index.ts:32-39): missing file or a `JSON.parse`
failure yields `{}`. -/
def readMeta (fs : Fs) : JsVal :=
  match fs.metaFile with
  | none => .obj []
  | some s =>
    match parseJsonStr s with
    | some v => v
    | none => .obj []

/-- An HTTP response: status and the JSON value passed to `res.json`
(`res.json` without `res.status` responds 200). -/
structure Resp where
  status : Nat
  body : JsVal
deriving DecidableEq

/-- A write-side filesystem call performed by a handler, in order. -/
inductive FsOp where
  | writeFile (path content : String)
  | copyFile (src dst : String)
  | rename (src dst : String)
  | mkdirp (path : String)
  | rmRecursive (path : String)
deriving DecidableEq

def FsOp.isRename : FsOp → Bool
  | .rename _ _ => true
  | _ => false

/-!
## GET /api/accounts (src/server/index.ts:77-103)
-/

/-- The JSON object pushed for one listed account (src/server/index.ts:90-95)
and returned for a matched current account (line 126): the spread of the
parsed record with `id` overwritten in place and `label`/`added_at`
appended.  A `label` of `undefined` is dropped again by `res.json`'s
serialisation but is present on the in-memory object modelled here. -/
def accountJson (p : ParsedAccount) (idv labelv addedv : JsVal) : JsVal :=
  .obj [("id", idv), ("email", p.email), ("plan", p.plan), ("user_id", p.user_id),
    ("expires_at", p.expires_at), ("last_refresh", p.last_refresh),
    ("has_refresh_token", .bool p.has_refresh_token),
    ("openai_api_key", p.openai_api_key), ("label", labelv), ("added_at", addedv)]

/-- The plain spread `{...parsed}` (src/server/index.ts:132). -/
def ParsedAccount.toJson (p : ParsedAccount) : JsVal :=
  .obj [("id", p.id), ("email", p.email), ("plan", p.plan), ("user_id", p.user_id),
    ("expires_at", p.expires_at), ("last_refresh", p.last_refresh),
    ("has_refresh_token", .bool p.has_refresh_token),
    ("openai_api_key", p.openai_api_key)]

/-- The body of the per-directory `try` of the list handler
(src/server/index.ts:87-98) for an entry whose `auth.json` exists with the
given content: `none` when a step throws (invalid JSON, a parse-time
`TypeError`, or `meta[dir]` with a JSON-`null` meta) and the entry is
skipped. -/
def listEntryOut (meta : JsVal) (dir content : String) : Option JsVal :=
  match parseJsonStr content with
  | none => none
  | some authData =>
    match parseAuthFile authData dir with
    | none => none
    | some parsed =>
      match jsGetE meta dir with
      | none => none
      | some mentry =>
        some (accountJson parsed (.str dir) (jsOptGet mentry "label")
          (jsOr (jsOptGet mentry "added_at") (.num 0)))

/-- One iteration of the list handler's `for` loop (src/server/index.ts:84-99):
skip the entry when its `auth.json` is missing (line 86) or the `try` block
throws, push the parsed account otherwise. -/
def listStep (meta : JsVal) (acc : List JsVal) (e : String × Option String) :
    List JsVal :=
  match e.2 with
  | none => acc
  | some content =>
    match listEntryOut meta e.1 content with
    | some a => acc ++ [a]
    | none => acc

/-- GET /api/accounts (src/server/index.ts:77-103): fold over the directory
entries, pushing each successfully parsed account. -/
def listAccounts (fs : Fs) : List JsVal :=
  if fs.accountsDirExists then
    fs.accountEntries.foldl (listStep (readMeta fs)) []
  else []

/-- The list handler together with its console output: neither the
missing-file `continue` (line 86) nor the `catch` block (lines 96-98, a bare
`// skip malformed` comment) logs anything, so the console trace is empty. -/
def listAccountsWithConsole (fs : Fs) : List JsVal × List String :=
  (listAccounts fs, [])

/-!
## GET /api/accounts/current (src/server/index.ts:106-136)
-/

/-- One iteration of the matching loop (src/server/index.ts:118-129) for the
directory entry `e`: the response returned from inside the inner `try`, or
`none` when the iteration falls through (missing `auth.json`, invalid JSON,
`candidate.tokens` throwing on JSON `null`, no token match, or `meta[dir]`
throwing on a JSON-`null` meta — each caught throw just skips the
candidate). -/
def currentCandidate (meta authData : JsVal) (parsed : ParsedAccount)
    (e : String × Option String) : Option JsVal :=
  match e.2 with
  | none => none
  | some c =>
    match parseJsonStr c with
    | none => none
    | some cand =>
      if jsIsNullOrUndef cand then none
      else
        let tokens := jsOr (jsOptGet cand "tokens") (.obj [])
        let currentTokens := jsOr (jsOptGet authData "tokens") (.obj [])
        if jsStrictEq (jsOptGet tokens "account_id") (jsOptGet currentTokens "account_id")
            || jsStrictEq (jsOptGet tokens "refresh_token")
              (jsOptGet currentTokens "refresh_token") then
          match jsGetE meta e.1 with
          | none => none
          | some mentry =>
            some (accountJson parsed (.str e.1) (jsOptGet mentry "label")
              (jsOr (jsOptGet mentry "added_at") (.num 0)))
        else none

/-- GET /api/accounts/current (src/server/index.ts:106-136).  Every branch
responds through `res.json`, a 200; a missing file, invalid JSON or a thrown
`TypeError` inside the outer `try` responds `null`. -/
def getCurrent (fs : Fs) : Resp :=
  match fs.authFile with
  | none => ⟨200, .null⟩
  | some s =>
    match parseJsonStr s with
    | none => ⟨200, .null⟩
    | some authData =>
      match parseAuthFile authData "current" with
      | none => ⟨200, .null⟩
      | some parsed =>
        let meta := readMeta fs
        let scan :=
          if fs.accountsDirExists then
            fs.accountEntries.findSome? (currentCandidate meta authData parsed)
          else none
        match scan with
        | some out => ⟨200, out⟩
        | none => ⟨200, parsed.toJson⟩

/-!
## POST /api/accounts/switch (src/server/index.ts:139-147)
-/

/-- POST /api/accounts/switch with body `{id}` (src/server/index.ts:139-147):
404 when `accounts/<id>/auth.json` does not exist, else
`fs.copyFileSync(authPath, AUTH_FILE)` — a direct file copy, no temporary
file and no rename. -/
def switchAccount (fs : Fs) (id : String) : Resp × Fs × List FsOp :=
  match entryContent fs id with
  | none => (⟨404, .obj [("error", .str "Account not found")]⟩, fs, [])
  | some c =>
    (⟨200, .obj [("success", .bool true)]⟩, { fs with authFile := some c },
      [.copyFile (accountAuthPath id) AUTH_FILE])

/-!
## DELETE /api/accounts/:id (src/server/index.ts:150-161)
-/

/-- `writeMeta` (src/server/index.ts:41-43): a direct `fs.writeFileSync` of
the stringified map. -/
def writeMetaContent (meta : JsVal) : String := stringifyJson meta

/-- DELETE /api/accounts/:id (src/server/index.ts:150-161): 404 when the
account directory does not exist; otherwise remove the directory, delete the
meta entry and rewrite the meta file.  The handler has no `try`, so a
`TypeError` from `delete meta[id]` on a JSON-`null` meta reaches Express's
default error handler, a 500. -/
def deleteAccount (fs : Fs) (id : String) : Resp × Fs × List FsOp :=
  if entryDirExists fs id then
    let fs1 : Fs :=
      { fs with accountEntries := fs.accountEntries.filter (fun e => e.1 != id) }
    let meta := readMeta fs
    match jsDelete meta id with
    | none =>
      (⟨500, .obj [("error", .str "TypeError")]⟩, fs1, [.rmRecursive (accountDirPath id)])
    | some meta2 =>
      (⟨200, .obj [("success", .bool true)]⟩,
        { fs1 with metaFile := some (writeMetaContent meta2) },
        [.rmRecursive (accountDirPath id), .writeFile META_FILE (writeMetaContent meta2)])
  else (⟨404, .obj [("error", .str "Account not found")]⟩, fs, [])

/-!
## POST /api/accounts/import-current (src/server/index.ts:175-199)
-/

/-- Every character outside `[a-zA-Z0-9_-]` is replaced by `_`
(src/server/index.ts:185). -/
def isSafeIdChar (c : Char) : Bool :=
  ('a' ≤ c ∧ c ≤ 'z') ∨ ('A' ≤ c ∧ c ≤ 'Z') ∨ ('0' ≤ c ∧ c ≤ '9') ∨ c = '_' ∨ c = '-'

def sanitizeId (s : String) : String :=
  String.mk (s.data.map (fun c => if isSafeIdChar c then c else '_'))

/-- The source identifier of line 184:
`tokens.account_id || parsed.user_id || `acc_${Date.now()}``. -/
def importSourceId (authData : JsVal) (parsed : ParsedAccount) (now : Int) : JsVal :=
  jsOr (jsOptGet (jsOr (jsOptGet authData "tokens") (.obj [])) "account_id")
    (jsOr parsed.user_id (.str ("acc_" ++ toString now)))

/-- POST /api/accounts/import-current (src/server/index.ts:175-199) with
request label and `Date.now() = now`: 400 without an active `auth.json`; the
`try` turns invalid JSON, a parse `TypeError`, `.replace` on a non-string
identifier, and `meta[safeId] = ...` on a non-object meta into a 500;
otherwise the active file is copied verbatim into `accounts/<safeId>/` and
the meta entry `{added_at, label}` is written. -/
def importCurrent (fs : Fs) (label : JsVal) (now : Int) : Resp × Fs × List FsOp :=
  match fs.authFile with
  | none => (⟨400, .obj [("error", .str "No auth.json found. Run codex login first.")]⟩,
      fs, [])
  | some content =>
    match parseJsonStr content with
    | none => (⟨500, .obj [("error", .str "SyntaxError")]⟩, fs, [])
    | some authData =>
      match parseAuthFile authData "tmp" with
      | none => (⟨500, .obj [("error", .str "TypeError")]⟩, fs, [])
      | some parsed =>
        match importSourceId authData parsed now with
        | .str s =>
          let safeId := sanitizeId s
          let meta := readMeta fs
          match jsSet meta safeId
              (.obj [("added_at", .num now), ("label", jsOr label .undefined)]) with
          | none => (⟨500, .obj [("error", .str "TypeError")]⟩, fs,
              [.mkdirp (accountDirPath safeId),
                .copyFile AUTH_FILE (accountAuthPath safeId)])
          | some meta2 =>
            (⟨200, .obj [("success", .bool true), ("id", .str safeId),
                ("email", parsed.email)]⟩,
              { fs with
                accountEntries :=
                  if fs.accountEntries.any (fun e => e.1 == safeId) then
                    fs.accountEntries.map
                      (fun e => if e.1 == safeId then (safeId, some content) else e)
                  else fs.accountEntries ++ [(safeId, some content)]
                accountsDirExists := true
                metaFile := some (writeMetaContent meta2) },
              [.mkdirp (accountDirPath safeId),
                .copyFile AUTH_FILE (accountAuthPath safeId),
                .writeFile META_FILE (writeMetaContent meta2)])
        | _ => (⟨500, .obj [("error", .str "TypeError")]⟩, fs, [])

/-!
## Log Sink (spec §4.3)
-/

/-- Modelled from the spec: the Log Sink component (spec §2 item 3, §4.3) is
not among the sources under `src/`; only the spec describes it.  A bounded
append-mostly store: `maxLogs` is the `max_logs` retention ceiling and
`logs` holds the records oldest first. -/
structure LogSink (α : Type) where
  maxLogs : Nat
  logs : List α

/-- Modelled from the spec: `append(record)` "evicts the oldest record when
count > `max_logs`" — the record is appended and then oldest records are
dropped from the front until the count is back within the ceiling. -/
def LogSink.append {α : Type} (s : LogSink α) (r : α) : LogSink α :=
  let l := s.logs ++ [r]
  { s with logs := l.drop (l.length - s.maxLogs) }

/-- Modelled from the spec: `clear()` — drop all. -/
def LogSink.clear {α : Type} (s : LogSink α) : LogSink α := { s with logs := [] }

def LogSink.empty (α : Type) (maxLogs : Nat) : LogSink α := ⟨maxLogs, []⟩

/-- The states a Log Sink can be in over its lifetime: it starts empty and is
modified only by `append` and `clear` (the other spec operations — `count`,
`query`, `detail` — are read-only). -/
inductive LogSink.Reachable {α : Type} : LogSink α → Prop
  | empty (maxLogs : Nat) : LogSink.Reachable (LogSink.empty α maxLogs)
  | append (s : LogSink α) (r : α) :
      LogSink.Reachable s → LogSink.Reachable (s.append r)
  | clear (s : LogSink α) : LogSink.Reachable s → LogSink.Reachable s.clear

/-!
## Concrete records used by the witnesses
-/

/-- An id token whose payload is
`{"email":"e@x.io","https://api.openai.com/auth":{"chatgpt_plan_type":"plus","chatgpt_user_id":"u1"}}`. -/
def sampleIdTok : String :=
  "h.eyJlbWFpbCI6ImVAeC5pbyIsImh0dHBzOi8vYXBpLm9wZW5haS5jb20vYXV0aCI6eyJjaGF0Z3B0X3BsYW5fdHlwZSI6InBsdXMiLCJjaGF0Z3B0X3VzZXJfaWQiOiJ1MSJ9fQ.s"

/-- An access token whose payload is
`{"exp":1700000000,"https://api.openai.com/profile":{"email":"p@x.io"}}`. -/
def sampleAccTok : String :=
  "h.eyJleHAiOjE3MDAwMDAwMDAsImh0dHBzOi8vYXBpLm9wZW5haS5jb20vcHJvZmlsZSI6eyJlbWFpbCI6InBAeC5pbyJ9fQ.s"

def sampleAuth : JsVal :=
  .obj [("tokens", .obj [("id_token", .str sampleIdTok),
    ("access_token", .str sampleAccTok), ("refresh_token", .str "r1"),
    ("account_id", .str "acc-1")])]

def sampleParsed : ParsedAccount :=
  ⟨.str "acc-1", .str "e@x.io", .str "plus", .str "u1", .num 1700000000000, .null,
    true, .null⟩

/-- What `parseAuthFile` yields on the empty record `{}` with account id `x`. -/
def emptyParsed : ParsedAccount :=
  ⟨.str "x", .str "", .str "free", .str "", .num 0, .null, false, .null⟩

def goodContent : String := "\x7b\x7d"

def fsList : Fs :=
  ⟨true, [("good", some goodContent), ("bad", some "notjson"), ("gone", none)], none, none⟩

def goodParsed : ParsedAccount :=
  ⟨.str "good", .str "", .str "free", .str "", .num 0, .null, false, .null⟩

def goodOut : JsVal := accountJson goodParsed (.str "good") .undefined (.num 0)

def curAuthStr : String :=
  "\x7b\"tokens\":\x7b\"account_id\":\"A\",\"refresh_token\":\"r1\"\x7d\x7d"

def candStr : String :=
  "\x7b\"tokens\":\x7b\"account_id\":\"B\",\"refresh_token\":\"r2\"\x7d\x7d"

def fsCur : Fs := ⟨true, [("b", some candStr)], some curAuthStr, none⟩

def fsCurMissing : Fs := ⟨true, [], none, none⟩

def curParsed : ParsedAccount :=
  ⟨.str "A", .str "", .str "free", .str "", .num 0, .null, true, .null⟩

def fsSwitch : Fs := ⟨true, [("a", some goodContent)], some "old", none⟩

def fsDel : Fs := ⟨true, [("a", some goodContent)], none, none⟩

def legacyStr : String := "\x7b\"refresh_token\":\"r1\"\x7d"

def fsLegacy : Fs := ⟨true, [], some legacyStr, none⟩

def fsImp : Fs := ⟨true, [], some goodContent, none⟩

def tmpParsed : ParsedAccount :=
  ⟨.str "tmp", .str "", .str "free", .str "", .num 0, .null, false, .null⟩

def sink9 : LogSink Nat := (LogSink.empty Nat 1).append 7

/-- A credential record in the nested on-disk layout (spec §6, file record
schema). -/
def nestedRecordOf (i a r c : JsVal) : JsVal :=
  .obj [("tokens", .obj [("id_token", i), ("access_token", a),
    ("refresh_token", r), ("account_id", c)])]

/-- The same record in the legacy layout: the four token fields at the top
level. -/
def legacyRecordOf (i a r c : JsVal) : JsVal :=
  .obj [("id_token", i), ("access_token", a), ("refresh_token", r), ("account_id", c)]

/-!
## Shared lemmas
-/

theorem jsOr_undef (v : JsVal) : jsOr .undefined v = v := rfl

theorem jsOr_truthy {a : JsVal} (h : jsTruthy a = true) (b : JsVal) : jsOr a b = a := by
  simp [jsOr, h]

/-- Closed form of a successful `parseAuthFile`: each field as the source
computes it (src/server/index.ts:47-73). -/
theorem parseAuthFile_fields (authData : JsVal) (aid : String) (p : ParsedAccount)
    (h : parseAuthFile authData aid = some p) :
    p = { id := storedAccountIdOf authData aid
        , email := jsOr (jsOptGet (decodeJwt (idTokenOf authData)) "email")
            (jsOr (jsOptGet (profileClaimsOf (decodeJwt (accessTokenOf authData))) "email")
              (.str ""))
        , plan := jsOr (jsOptGet (openaiClaimsOf (decodeJwt (idTokenOf authData))
            (decodeJwt (accessTokenOf authData))) "chatgpt_plan_type") (.str "free")
        , user_id := jsOr (jsOptGet (openaiClaimsOf (decodeJwt (idTokenOf authData))
            (decodeJwt (accessTokenOf authData))) "chatgpt_user_id")
            (jsOr (jsOptGet (decodeJwt (idTokenOf authData)) "sub") (.str ""))
        , expires_at := jsMul1000 (jsOr (jsOptGet (decodeJwt (accessTokenOf authData)) "exp")
            (jsOr (jsOptGet (decodeJwt (idTokenOf authData)) "exp") (.num 0)))
        , last_refresh := jsOr (jsOptGet authData "last_refresh") .null
        , has_refresh_token := jsLenPos (refreshTokenOf authData)
        , openai_api_key := jsOr (jsOptGet authData "OPENAI_API_KEY") .null } := by
  simp only [parseAuthFile] at h
  split at h
  · exact absurd h (by simp)
  · split at h
    · exact absurd h (by simp)
    · injection h with h2
      exact h2.symm

/-!
## C1 — derived claim fields and their defaults
-/

/-- C1: for every stored record whose token payloads `parseAuthFile` reads,
the derived fields come from the JWT claims with fixed defaults when a claim
is absent: with the `email` claim absent from the id-token payload and from
the profile-namespace claims, the derived email is the empty string; the
plan is read from the `chatgpt_plan_type` claim under the
`https://api.openai.com/auth` namespace when present (and truthy) and
defaults to `free` when absent; and with the `exp` claim absent from both
payloads the derived expiry is 0. -/
theorem c1_parse_claim_defaults (authData : JsVal) (aid : String) (p : ParsedAccount)
    (idP atP : JsVal)
    (hid : idP = decodeJwt (idTokenOf authData))
    (hat : atP = decodeJwt (accessTokenOf authData))
    (hp : parseAuthFile authData aid = some p) :
    (jsOptGet idP "email" = .undefined →
      jsOptGet (profileClaimsOf atP) "email" = .undefined → p.email = .str "") ∧
    (∀ v, jsOptGet (openaiClaimsOf idP atP) "chatgpt_plan_type" = v → jsTruthy v = true →
      p.plan = v) ∧
    (jsOptGet (openaiClaimsOf idP atP) "chatgpt_plan_type" = .undefined → p.plan = .str "free") ∧
    (jsOptGet atP "exp" = .undefined → jsOptGet idP "exp" = .undefined → p.expires_at = .num 0) := by
  subst hid
  subst hat
  have hf := parseAuthFile_fields authData aid p hp
  subst hf
  refine ⟨?_, ?_, ?_, ?_⟩
  · intro h1 h2
    simp [h1, h2, jsOr_undef]
  · intro v hv ht
    simp only [hv]
    exact jsOr_truthy ht _
  · intro h1
    simp [h1, jsOr_undef]
  · intro h1 h2
    simp [h1, h2, jsOr_undef, jsMul1000, jsToNumber]

set_option maxRecDepth 400000 in
theorem c1_parse_claim_defaults_witness :
    parseAuthFile (JsVal.obj []) "x" = some emptyParsed ∧
    emptyParsed.email = .str "" ∧ emptyParsed.plan = .str "free" ∧
    emptyParsed.expires_at = .num 0 ∧ sampleParsed.plan = .str "plus" := by
  have h1 := c1_parse_claim_defaults (JsVal.obj []) "x" emptyParsed _ _ rfl rfl (by decide)
  have h2 := c1_parse_claim_defaults sampleAuth "x" sampleParsed _ _ rfl rfl (by decide)
  exact ⟨by decide, h1.1 (by decide) (by decide), h1.2.2.1 (by decide),
    h1.2.2.2 (by decide) (by decide), h2.2.1 (.str "plus") (by decide) (by decide)⟩

/-!
## C7 — expiry in milliseconds
-/

/-- C7: for every record `parseAuthFile` accepts, the derived `expires_at`
equals the selected `exp` claim (seconds, the access-token payload's claim
first, then the id-token payload's) multiplied by exactly 1000; when neither
payload carries an `exp` claim the field is 0. -/
theorem c7_expires_at_milliseconds (authData : JsVal) (aid : String) (p : ParsedAccount)
    (idP atP : JsVal)
    (hid : idP = decodeJwt (idTokenOf authData))
    (hat : atP = decodeJwt (accessTokenOf authData))
    (hp : parseAuthFile authData aid = some p) :
    (∀ n : Int, jsOr (jsOptGet atP "exp") (jsOr (jsOptGet idP "exp") (.num 0)) = .num n →
      p.expires_at = .num (n * 1000)) ∧
    (jsOptGet atP "exp" = .undefined → jsOptGet idP "exp" = .undefined → p.expires_at = .num 0) := by
  subst hid
  subst hat
  have hf := parseAuthFile_fields authData aid p hp
  subst hf
  refine ⟨?_, ?_⟩
  · intro n hn
    simp only [hn]
    simp [jsMul1000, jsToNumber]
  · intro h1 h2
    simp [h1, h2, jsOr_undef, jsMul1000, jsToNumber]

set_option maxRecDepth 400000 in
theorem c7_expires_at_milliseconds_witness :
    parseAuthFile sampleAuth "x" = some sampleParsed ∧
    sampleParsed.expires_at = .num (1700000000 * 1000) := by
  have h := c7_expires_at_milliseconds sampleAuth "x" sampleParsed _ _ rfl rfl (by decide)
  exact ⟨by decide, h.1 1700000000 (by decide)⟩

/-!
## C6 — JWT decode failures are contained (though not logged)
-/

/-- C6 (counterexample to the claim as stated): `"notajwt"` has no `.`
separator, so its decode fails — yet the handler's console trace is empty:
the failure is *not* logged (the `catch` block of src/server/index.ts:27-29
is bare), contradicting "a decode failure is logged". -/
theorem c6_decode_failure_unlogged_counterexample :
    decodeJwtE (.str "notajwt") = none ∧
    decodeJwtWithConsole (.str "notajwt") = (.obj [], []) := by decide

/-- C6 (amended): for every input value — strings without a `.` separator,
non-base64url or non-JSON payloads, and non-strings included — JWT claim
decoding never propagates an error to its caller: a decode failure is
silently swallowed (no log is emitted) and treated as an empty claim set,
from which all fields `parseAuthFile` derives take their defaults. -/
theorem c6_decode_failure_empty_claims : ∀ v : JsVal, decodeJwtE v = none →
    decodeJwt v = .obj [] ∧
    ∀ aid : String,
      parseAuthFile (.obj [("tokens", .obj [("id_token", v), ("access_token", v)])]) aid =
        some ⟨.str aid, .str "", .str "free", .str "", .num 0, .null, false, .null⟩ := by
  intro v h
  have hd : decodeJwt v = .obj [] := by unfold decodeJwt; rw [h]
  have hd0 : decodeJwt (.str "") = .obj [] := by decide
  refine ⟨hd, fun aid => ?_⟩
  have hjw : decodeJwt (jsOr v (.str "")) = .obj [] := by
    cases ht : jsTruthy v
    · simp [jsOr, ht, hd0]
    · simp [jsOr, ht, hd]
  have h1 : decodeJwt (idTokenOf
      (.obj [("tokens", .obj [("id_token", v), ("access_token", v)])])) = .obj [] := hjw
  have h2 : decodeJwt (accessTokenOf
      (.obj [("tokens", .obj [("id_token", v), ("access_token", v)])])) = .obj [] := hjw
  simp only [parseAuthFile, h1, h2]
  rfl

theorem c6_decode_failure_empty_claims_witness : decodeJwt (.str "notajwt") = .obj [] ∧
    parseAuthFile (.obj [("tokens", .obj [("id_token", .str "notajwt"),
      ("access_token", .str "notajwt")])]) "y" =
      some ⟨.str "y", .str "", .str "free", .str "", .num 0, .null, false, .null⟩ := by
  have h := c6_decode_failure_empty_claims (.str "notajwt") (by decide)
  exact ⟨h.1, h.2 "y"⟩

/-!
## C5 — list never aborts on a corrupt record (though it does not log)
-/

theorem listStep_foldl (meta : JsVal) (l : List (String × Option String))
    (acc : List JsVal) :
    l.foldl (listStep meta) acc =
      acc ++ l.filterMap (fun e => e.2.bind (listEntryOut meta e.1)) := by
  induction l generalizing acc with
  | nil => simp
  | cons x xs ih =>
    rcases x with ⟨name, c⟩
    cases c with
    | none => simp [listStep, ih]
    | some content =>
      cases h : listEntryOut meta name content <;> simp [listStep, h, ih]

set_option maxRecDepth 400000 in
/-- C5 (counterexample to the claim as stated): with one well-formed record
(`good`), one invalid-JSON record (`bad`) and one missing `auth.json`
(`gone`), the list result keeps exactly the good account — but the console
trace is empty: the corrupt record is *not* logged (the `catch` of
src/server/index.ts:96-98 only carries a `// skip malformed` comment),
contradicting "is logged and skipped". -/
theorem c5_corrupt_skip_unlogged_counterexample :
    listAccountsWithConsole fsList = ([goodOut], []) := by decide

/-- C5 (amended): for every set of on-disk account records, `list` returns
all parseable records and never aborts the enumeration because of a corrupt
record: each record whose `auth.json` is missing or fails to parse is
silently skipped (no log is emitted), each entry is processed independently
(the result is a per-entry `filterMap`), and every record that parses still
appears in the result. -/
theorem c5_list_skips_corrupt_records (fs : Fs) (hdir : fs.accountsDirExists = true) :
    listAccounts fs = fs.accountEntries.filterMap
      (fun e => e.2.bind (listEntryOut (readMeta fs) e.1)) ∧
    ∀ dir content out, (dir, some content) ∈ fs.accountEntries →
      listEntryOut (readMeta fs) dir content = some out → out ∈ listAccounts fs := by
  have hlist : listAccounts fs = fs.accountEntries.filterMap
      (fun e => e.2.bind (listEntryOut (readMeta fs) e.1)) := by
    unfold listAccounts
    simp only [hdir, if_true]
    simpa using listStep_foldl (readMeta fs) fs.accountEntries []
  refine ⟨hlist, fun dir content out hmem hout => ?_⟩
  rw [hlist]
  exact List.mem_filterMap.mpr ⟨(dir, some content), hmem, by simpa using hout⟩

set_option maxRecDepth 400000 in
theorem c5_list_skips_corrupt_records_witness :
    goodOut ∈ listAccounts fsList ∧ listAccounts fsList = [goodOut] := by
  have h := c5_list_skips_corrupt_records fsList rfl
  exact ⟨h.2 "good" goodContent goodOut (by decide) (by decide), by decide⟩

/-!
## C2 — saves are direct writes, not temp-file renames
-/

/-- C2 (counterexample to the claim as stated): switching to the stored
account `a` succeeds and replaces `~/.codex/auth.json` — but the handler's
only filesystem write is a single direct `copyFileSync`; no temporary file
is written and no rename is performed, contradicting "atomically by writing
a temporary file and then renaming it into place". -/
theorem c2_switch_no_rename_counterexample :
    (switchAccount fsSwitch "a").1.status = 200 ∧
    (switchAccount fsSwitch "a").2.1.authFile = some goodContent ∧
    (switchAccount fsSwitch "a").2.2 = [.copyFile (accountAuthPath "a") AUTH_FILE] ∧
    (switchAccount fsSwitch "a").2.2.all (fun op => !op.isRename) = true := by decide

/-- C2 (amended): every save of the credential record writes the target
directly: a successful switch performs exactly one `copyFileSync` of
`accounts/<id>/auth.json` over `auth.json`, and an import performs `mkdir`,
one `copyFileSync` of `auth.json` into the account directory and one direct
`writeFileSync` of the metadata; no save performs a rename (and hence no
temp-file-plus-rename replacement). -/
theorem c2_save_direct_write :
    (∀ fs id c, entryContent fs id = some c →
      switchAccount fs id =
        (⟨200, .obj [("success", .bool true)]⟩, { fs with authFile := some c },
          [.copyFile (accountAuthPath id) AUTH_FILE])) ∧
    (∀ fs label now,
      (∀ op ∈ (importCurrent fs label now).2.2, op.isRename = false) ∧
      ((importCurrent fs label now).1.status = 200 → ∃ sid m,
        (importCurrent fs label now).2.2 =
          [.mkdirp (accountDirPath sid), .copyFile AUTH_FILE (accountAuthPath sid),
            .writeFile META_FILE m])) := by
  constructor
  · intro fs id c h
    unfold switchAccount
    rw [h]
  · intro fs label now
    unfold importCurrent
    dsimp only
    split
    · exact ⟨by intro op hop; simp at hop, by intro hs; simp at hs⟩
    · split
      · exact ⟨by intro op hop; simp at hop, by intro hs; simp at hs⟩
      · split
        · exact ⟨by intro op hop; simp at hop, by intro hs; simp at hs⟩
        · split
          · split
            · refine ⟨?_, ?_⟩
              · intro op hop
                simp at hop
                rcases hop with rfl | rfl <;> rfl
              · intro hs
                simp at hs
            · refine ⟨?_, ?_⟩
              · intro op hop
                simp at hop
                rcases hop with rfl | rfl | rfl <;> rfl
              · intro hs
                exact ⟨_, _, rfl⟩
          · exact ⟨by intro op hop; simp at hop, by intro hs; simp at hs⟩

set_option maxRecDepth 400000 in
theorem c2_save_direct_write_witness :
    switchAccount fsSwitch "a" =
      (⟨200, .obj [("success", .bool true)]⟩,
        { fsSwitch with authFile := some goodContent },
        [.copyFile (accountAuthPath "a") AUTH_FILE]) ∧
    (∀ op ∈ (importCurrent fsImp .undefined 1234).2.2, op.isRename = false) := by
  exact ⟨c2_save_direct_write.1 fsSwitch "a" goodContent (by decide), (c2_save_direct_write.2 fsImp .undefined 1234).1⟩

/-- C3 (counterexample to the claim as stated): after a first delete of `a`
succeeds, deleting the same id again responds 404 `Account not found` — not
the same observable result as the first successful delete, so delete is not
idempotent. -/
theorem c3_delete_not_idempotent_counterexample :
    (deleteAccount fsDel "a").1 = ⟨200, .obj [("success", .bool true)]⟩ ∧
    (deleteAccount ((deleteAccount fsDel "a").2.1) "a").1 =
      ⟨404, .obj [("error", .str "Account not found")]⟩ := by decide

/-- C3 (amended): `delete(id)` removes the account's record when the account
directory exists (removing the directory, dropping the meta entry and
rewriting the meta file); deleting an id whose record does not exist —
deleting the same id a second time included — fails with 404
`Account not found` rather than succeeding. -/
theorem c3_delete_behavior :
    (∀ fs id, entryDirExists fs id = false →
      deleteAccount fs id = (⟨404, .obj [("error", .str "Account not found")]⟩, fs, [])) ∧
    (∀ fs id meta2, entryDirExists fs id = true →
      jsDelete (readMeta fs) id = some meta2 →
      deleteAccount fs id =
        (⟨200, .obj [("success", .bool true)]⟩,
          ⟨fs.accountsDirExists, fs.accountEntries.filter (fun e => e.1 != id),
            fs.authFile, some (writeMetaContent meta2)⟩,
          [.rmRecursive (accountDirPath id), .writeFile META_FILE (writeMetaContent meta2)])) := by
  constructor
  · intro fs id h
    unfold deleteAccount
    simp [h]
  · intro fs id meta2 h1 h2
    unfold deleteAccount
    simp [h1, h2]

set_option maxRecDepth 400000 in
theorem c3_delete_behavior_witness :
    deleteAccount fsDel "a" =
      (⟨200, .obj [("success", .bool true)]⟩,
        ⟨true, [], none, some (writeMetaContent (.obj []))⟩,
        [.rmRecursive (accountDirPath "a"),
          .writeFile META_FILE (writeMetaContent (.obj []))]) ∧
    deleteAccount fsDel "b" =
      (⟨404, .obj [("error", .str "Account not found")]⟩, fsDel, []) := by
  refine ⟨?_, c3_delete_behavior.1 fsDel "b" (by decide)⟩
  have h := c3_delete_behavior.2 fsDel "a" (.obj []) (by decide) (by decide)
  simpa using h

/-!
## C4 — both layouts are read; writes are verbatim copies
-/

/-- C4 (counterexample to the claim as stated): importing an active
`auth.json` that is in the legacy layout succeeds, and the record written to
`accounts/acc_5/auth.json` is byte-identical to the legacy input — it still
has no `tokens` object — so the write did **not** emit the nested form. -/
theorem c4_write_preserves_legacy_counterexample :
    (importCurrent fsLegacy .undefined 5).1.status = 200 ∧
    entryContent (importCurrent fsLegacy .undefined 5).2.1 "acc_5" = some legacyStr ∧
    (parseJsonStr legacyStr).map (fun v => jsOptGet v "tokens") = some .undefined := by decide

/-- C4 (amended): readers accept both on-disk layouts — `parseAuthFile`
derives exactly the same account record from the nested form and from the
legacy top-level form — but writes copy the credential record verbatim
(switch copies the stored bytes over `auth.json`; import copies `auth.json`
bytes into the account directory), so a record read in the legacy form is
re-emitted in the legacy form rather than normalised to the nested form. -/
theorem c4_layouts_read_write :
    (∀ i a r c aid,
      parseAuthFile (nestedRecordOf i a r c) aid = parseAuthFile (legacyRecordOf i a r c) aid) ∧
    (∀ fs id ct, entryContent fs id = some ct →
      (switchAccount fs id).2.1.authFile = some ct) ∧
    (∀ fs label now content authData parsed s,
      fs.authFile = some content → parseJsonStr content = some authData →
      parseAuthFile authData "tmp" = some parsed →
      importSourceId authData parsed now = .str s →
      ∀ meta2, jsSet (readMeta fs) (sanitizeId s)
          (.obj [("added_at", .num now), ("label", jsOr label .undefined)]) = some meta2 →
        (importCurrent fs label now).1.status = 200 ∧
        (sanitizeId s, some content) ∈ (importCurrent fs label now).2.1.accountEntries) := by
  refine ⟨fun i a r c aid => rfl, ?_, ?_⟩
  · intro fs id ct h
    unfold switchAccount
    rw [h]
  · intro fs label now content authData parsed s h1 h2 h3 h4 meta2 h5
    unfold importCurrent
    simp only [h1, h2, h3, h4, h5]
    refine ⟨trivial, ?_⟩
    by_cases hany : fs.accountEntries.any (fun e => e.1 == sanitizeId s)
    · simp only [hany, if_true]
      obtain ⟨e, he, heq⟩ := List.any_eq_true.mp hany
      exact List.mem_map.mpr ⟨e, he, by simp [heq]⟩
    · simp only [hany, if_false]
      exact List.mem_append_right _ (List.mem_singleton.mpr rfl)

set_option maxRecDepth 400000 in
theorem c4_layouts_read_write_witness :
    parseAuthFile (nestedRecordOf (.str "i") (.str "a") (.str "r") (.str "c")) "z" =
      parseAuthFile (legacyRecordOf (.str "i") (.str "a") (.str "r") (.str "c")) "z" ∧
    (switchAccount fsSwitch "a").2.1.authFile = some goodContent ∧
    ((importCurrent fsLegacy .undefined 5).1.status = 200 ∧
      ("acc_5", some legacyStr) ∈ (importCurrent fsLegacy .undefined 5).2.1.accountEntries) := by
  refine ⟨c4_layouts_read_write.1 _ _ _ _ "z", c4_layouts_read_write.2.1 fsSwitch "a" goodContent (by decide), ?_⟩
  have h := c4_layouts_read_write.2.2 fsLegacy .undefined 5 legacyStr
    (.obj [("refresh_token", .str "r1")])
    ⟨.str "tmp", .str "", .str "free", .str "", .num 0, .null, true, .null⟩
    "acc_5" (by decide) (by decide) (by decide) (by decide)
    (.obj [("acc_5", .obj [("added_at", .num 5), ("label", .undefined)])]) (by decide)
  simpa using h

theorem sanitizeId_chars_safe (s : String) :
    ∀ ch ∈ (sanitizeId s).data, isSafeIdChar ch = true := by
  intro ch hch
  simp only [sanitizeId, List.mem_map] at hch
  obtain ⟨c0, _, hrepl⟩ := hch
  split at hrepl
  · subst hrepl
    assumption
  · subst hrepl
    decide

/-- C8 (counterexample to the claim as stated): importing an active
`auth.json` equal to `{}` (no upstream account id, user id derived as the
empty string) succeeds with id `acc_1234` (for `Date.now() = 1234`), which
is not the sanitised upstream account id or user id — the claim omits the
`acc_<timestamp>` fallback of src/server/index.ts:184. -/
theorem c8_fallback_id_counterexample :
    (importCurrent fsImp .undefined 1234).1.status = 200 ∧
    jsOptGet (importCurrent fsImp .undefined 1234).1.body "id" = .str "acc_1234" ∧
    parseAuthFile (.obj []) "tmp" = some tmpParsed ∧
    tmpParsed.user_id = .str "" ∧
    jsOptGet (jsOr (jsOptGet (JsVal.obj []) "tokens") (.obj [])) "account_id" = .undefined ∧
    sanitizeId "" = "" ∧
    JsVal.str "acc_1234" ≠ .str "" := by decide

/-- C8 (amended): for every imported account, the assigned id is
`sanitizeId` of the source identifier — the upstream account id or, when
that is absent, the user id or, when both are absent, the generated
`acc_<timestamp>` fallback — and `sanitizeId` replaces every character
outside `[a-zA-Z0-9_-]` with `_`, so the resulting id never contains a path
separator (`/` or `\`) or any other unsafe character. -/
theorem c8_import_id_safe_slug :
    (∀ s, ∀ ch ∈ (sanitizeId s).data, isSafeIdChar ch = true) ∧
    (∀ s, '/' ∉ (sanitizeId s).data ∧ '\\' ∉ (sanitizeId s).data) ∧
    (∀ fs label now content authData parsed s,
      fs.authFile = some content → parseJsonStr content = some authData →
      parseAuthFile authData "tmp" = some parsed →
      importSourceId authData parsed now = .str s →
      (importCurrent fs label now).1.status = 200 →
      jsOptGet (importCurrent fs label now).1.body "id" = .str (sanitizeId s)) := by
  refine ⟨sanitizeId_chars_safe, ?_, ?_⟩
  · intro s
    constructor
    · intro hmem
      have := sanitizeId_chars_safe s _ hmem
      simp [isSafeIdChar] at this
    · intro hmem
      have := sanitizeId_chars_safe s _ hmem
      simp [isSafeIdChar] at this
  · intro fs label now content authData parsed s h1 h2 h3 h4 hs
    unfold importCurrent at hs ⊢
    simp only [h1, h2, h3, h4] at hs ⊢
    rcases h5 : jsSet (readMeta fs) (sanitizeId s)
        (.obj [("added_at", .num now), ("label", jsOr label .undefined)]) with _ | meta2
    · simp only [h5] at hs
      exact absurd hs (by decide)
    · simp only [h5]
      rfl

set_option maxRecDepth 400000 in
theorem c8_import_id_safe_slug_witness :
    isSafeIdChar '_' = true ∧
    '/' ∉ (sanitizeId "a/b").data ∧
    jsOptGet (importCurrent fsLegacy .undefined 5).1.body "id" = .str (sanitizeId "acc_5") := by
  refine ⟨c8_import_id_safe_slug.1 "a/b" '_' (by decide), (c8_import_id_safe_slug.2.1 "a/b").1, ?_⟩
  exact c8_import_id_safe_slug.2.2 fsLegacy .undefined 5 legacyStr (.obj [("refresh_token", .str "r1")])
    ⟨.str "tmp", .str "", .str "free", .str "", .num 0, .null, true, .null⟩ "acc_5"
    (by decide) (by decide) (by decide) (by decide) (by decide)

/-!
## C9 — Log Sink bound and FIFO eviction (spec-modelled)
-/

/-- C9: at every point in the Log Sink's lifetime (every state reachable
from the empty sink by `append`/`clear`) the number of stored records never
exceeds `max_logs`; an append to a non-full sink evicts nothing, and an
append to a full sink evicts exactly the oldest record (the head of the
oldest-first list) — strictly FIFO eviction. -/
theorem c9_log_bound_fifo {α : Type} (s : LogSink α) (h : s.Reachable) :
    s.logs.length ≤ s.maxLogs ∧
    ∀ r, (s.logs.length < s.maxLogs → (s.append r).logs = s.logs ++ [r]) ∧
      (s.logs.length = s.maxLogs → (s.append r).logs = (s.logs ++ [r]).drop 1) := by
  have hbound : s.logs.length ≤ s.maxLogs := by
    induction h with
    | empty m => simp [LogSink.empty]
    | append t r ih =>
      simp only [LogSink.append, List.length_drop, List.length_append]
      omega
    | clear t ih => simp [LogSink.clear]
  refine ⟨hbound, fun r => ⟨?_, ?_⟩⟩
  · intro hlt
    simp only [LogSink.append, List.length_append, List.length_singleton]
    rw [show s.logs.length + 1 - s.maxLogs = 0 by omega]
    rfl
  · intro heq
    simp only [LogSink.append, List.length_append, List.length_singleton]
    rw [show s.logs.length + 1 - s.maxLogs = 1 by omega]

theorem c9_log_bound_fifo_witness :
    sink9.logs.length ≤ sink9.maxLogs ∧ (sink9.append 8).logs = [8] := by
  have h := c9_log_bound_fifo sink9 (LogSink.Reachable.append _ 7 (LogSink.Reachable.empty 1))
  refine ⟨h.1, ?_⟩
  have h2 := (h.2 8).2 (by decide)
  rw [h2]
  rfl

theorem findSome?_eq_none_of_all {β : Type} {γ : Type} (f : β → Option γ) (l : List β)
    (h : ∀ x ∈ l, f x = none) : l.findSome? f = none := by
  induction l with
  | nil => rfl
  | cons x xs ih =>
    rw [List.findSome?_cons]
    rw [h x (by simp)]
    exact ih (fun y hy => h y (by simp [hy]))

/-- C10: for every filesystem state, GET /api/accounts/current responds
with a success status (200): when the active `auth.json` is missing or its
content fails to parse the body is JSON `null`, and when it parses but no
managed account matches (by stored account id or refresh token, each
candidate iteration yielding nothing) the parsed account is returned plain —
without a managed id, label or added_at from the metadata. -/
theorem c10_current_never_errors (fs : Fs) :
    (getCurrent fs).status = 200 ∧
    (fs.authFile = none → (getCurrent fs).body = .null) ∧
    (∀ s, fs.authFile = some s → parseJsonStr s = none → (getCurrent fs).body = .null) ∧
    (∀ s authData parsed, fs.authFile = some s → parseJsonStr s = some authData →
      parseAuthFile authData "current" = some parsed →
      (∀ e ∈ fs.accountEntries, currentCandidate (readMeta fs) authData parsed e = none) →
      (getCurrent fs).body = parsed.toJson) := by
  refine ⟨?_, ?_, ?_, ?_⟩
  · unfold getCurrent
    dsimp only
    repeat' split
    all_goals rfl
  · intro h
    simp only [getCurrent, h]
  · intro s h1 h2
    simp only [getCurrent, h1, h2]
  · intro s authData parsed h1 h2 h3 hall
    have hscan : fs.accountEntries.findSome?
        (currentCandidate (readMeta fs) authData parsed) = none :=
      findSome?_eq_none_of_all _ _ hall
    simp only [getCurrent, h1, h2, h3]
    cases hd : fs.accountsDirExists <;> simp only [hd, if_true, if_false, hscan]
    rfl

set_option maxRecDepth 400000 in
theorem c10_current_never_errors_witness :
    (getCurrent fsCurMissing).status = 200 ∧ (getCurrent fsCurMissing).body = .null ∧
    (getCurrent fsCur).body = curParsed.toJson := by
  have h1 := c10_current_never_errors fsCurMissing
  have h2 := c10_current_never_errors fsCur
  exact ⟨h1.1, h1.2.1 rfl,
    h2.2.2.2 curAuthStr
      (.obj [("tokens", .obj [("account_id", .str "A"), ("refresh_token", .str "r1")])])
      curParsed (by decide) (by decide) (by decide) (by decide)⟩
